import Mathlib

/-!
Verification development for the SansebasPrompt prompt engine
(`src/prompt_engine/`): a shallow embedding in Lean 4 of the attachment
splitter, the template layer, the prompt router and the task-record
storage layer, together with proofs of the specified properties.

Text manipulated character-wise by the Python code is modelled as
`List Char` (Python indexes and slices strings by code point, which
matches `List Char` exactly); text that is only stored, compared or
lexicographically ordered is modelled as `String`.
-/

/-- Abbreviation turning a string literal into its code-point list. -/
def S (s : String) : List Char := s.toList

/-- Python `str.strip()`: remove leading and trailing whitespace.
(`Char.isWhitespace` covers the space, tab, CR and LF characters that
occur in this code base.) -/
def strip (l : List Char) : List Char :=
  ((l.dropWhile Char.isWhitespace).reverse.dropWhile Char.isWhitespace).reverse

/-- Python `str.lower()` (code-point-wise lowering; the areas routed on
are ASCII). -/
def lower (l : List Char) : List Char := l.map Char.toLower

/-! ## Attachment reader — `src/prompt_engine/attachments.py` -/

/-- The `while inicio < len(texto)` slicing loop of `dividir_en_bloques`,
taking successive slices `texto[inicio:inicio+max_chars]`.  The chunk
size is `m + 1`: the loop is only reached with `max_chars >= 1`, and
the `+ 1` encoding makes termination structural. -/
def trocear (m : Nat) (l : List Char) : List (List Char) :=
  if h : l = [] then []
  else l.take (m + 1) :: trocear m (l.drop (m + 1))
termination_by l.length
decreasing_by
  simp only [List.length_drop]
  have : 0 < l.length := List.length_pos.mpr h
  omega

/-- `dividir_en_bloques(texto, max_chars)` from `attachments.py`:
raises `ValueError` for `max_chars <= 0`; returns `[texto]` when the
text fits in one block; otherwise slices the text into blocks of
`max_chars` characters. -/
def dividir_en_bloques (texto : List Char) (maxChars : Int) :
    Except String (List (List Char)) :=
  if maxChars ≤ 0 then .error "max_chars debe ser mayor a cero"
  else if (texto.length : Int) ≤ maxChars then .ok [texto]
  else .ok (trocear (maxChars.toNat - 1) texto)

/-! Auxiliary lemmas about `trocear`. -/

theorem trocear_nil (m : Nat) : trocear m [] = [] := by
  rw [trocear]; simp

theorem trocear_ne_nil (m : Nat) (l : List Char) (h : l ≠ []) :
    trocear m l = l.take (m + 1) :: trocear m (l.drop (m + 1)) := by
  rw [trocear]; simp [h]

/-- Concatenating the blocks produced by the slicing loop reconstructs
the input text. -/
theorem trocear_flatten (m : Nat) (l : List Char) :
    (trocear m l).flatten = l := by
  by_cases h : l = []
  · subst h; simp [trocear_nil]
  · rw [trocear_ne_nil m l h]
    have ih := trocear_flatten m (l.drop (m + 1))
    simp [List.flatten, ih]
termination_by l.length
decreasing_by
  simp only [List.length_drop]
  have : 0 < l.length := List.length_pos.mpr h
  omega

/-- The slicing loop produces `⌈length / (m+1)⌉` blocks
(`(n + m) / (m + 1)` is the ceiling of `n / (m+1)`). -/
theorem trocear_length (m : Nat) (l : List Char) :
    (trocear m l).length = (l.length + m) / (m + 1) := by
  by_cases h : l = []
  · subst h
    rw [trocear_nil]
    simp [Nat.div_eq_of_lt (Nat.lt_succ_self m)]
  · rw [trocear_ne_nil m l h]
    have ih := trocear_length m (l.drop (m + 1))
    rw [List.length_drop] at ih
    have hpos : 0 < l.length := List.length_pos.mpr h
    simp only [List.length_cons, ih]
    by_cases hle : m + 1 ≤ l.length
    · have h2 := Nat.add_div_right (l.length - (m + 1) + m) (show 0 < m + 1 by omega)
      have harg : l.length - (m + 1) + m + (m + 1) = l.length + m := by omega
      rw [harg] at h2
      exact h2.symm
    · have h2 : (l.length - (m + 1) + m) / (m + 1) = 0 := by
        apply Nat.div_eq_of_lt; omega
      have h3 := Nat.add_div_right (l.length - 1) (show 0 < m + 1 by omega)
      have harg : l.length - 1 + (m + 1) = l.length + m := by omega
      rw [harg] at h3
      have h4 : (l.length - 1) / (m + 1) = 0 := by
        apply Nat.div_eq_of_lt; omega
      omega
termination_by l.length
decreasing_by
  simp only [List.length_drop]
  have : 0 < l.length := List.length_pos.mpr h
  omega

/-- C1: for every text and every `max_chars > 0`, `dividir_en_bloques`
returns exactly one block equal to the text when it fits, and otherwise
`⌈len/max_chars⌉` blocks whose concatenation reconstructs the text. -/
theorem dividir_en_bloques_correct (texto : List Char) (maxChars : Int)
    (hpos : 0 < maxChars) :
    ((texto.length : Int) ≤ maxChars →
      dividir_en_bloques texto maxChars = .ok [texto]) ∧
    (maxChars < (texto.length : Int) →
      ∃ bs, dividir_en_bloques texto maxChars = .ok bs ∧
        bs.length = (texto.length + maxChars.toNat - 1) / maxChars.toNat ∧
        bs.flatten = texto) := by
  have hnot : ¬ maxChars ≤ 0 := by omega
  constructor
  · intro hfits
    simp [dividir_en_bloques, hnot, hfits]
  · intro hbig
    have hnfits : ¬ (texto.length : Int) ≤ maxChars := by omega
    refine ⟨trocear (maxChars.toNat - 1) texto, ?_, ?_, trocear_flatten _ _⟩
    · simp [dividir_en_bloques, hnot, hnfits]
    · have htn : 0 < maxChars.toNat := by omega
      rw [trocear_length]
      have h1 : maxChars.toNat - 1 + 1 = maxChars.toNat := by omega
      have h2 : texto.length + (maxChars.toNat - 1) =
          texto.length + maxChars.toNat - 1 := by omega
      rw [h1, h2]

theorem dividir_en_bloques_correct_witness :
    ∃ bs, dividir_en_bloques (S "abcde") 2 = .ok bs ∧
      bs.length = 3 ∧ bs.flatten = S "abcde" := by
  obtain ⟨bs, h1, h2, h3⟩ :=
    (dividir_en_bloques_correct (S "abcde") 2 (by decide)).2 (by decide)
  refine ⟨bs, h1, ?_, h3⟩
  rw [h2]
  decide

/-- C9: for every `max_chars <= 0` and every text, `dividir_en_bloques`
fails with the `ValueError` and returns no blocks. -/
theorem dividir_en_bloques_invalid (texto : List Char) (maxChars : Int)
    (h : maxChars ≤ 0) :
    dividir_en_bloques texto maxChars =
      .error "max_chars debe ser mayor a cero" := by
  simp [dividir_en_bloques, h]

theorem dividir_en_bloques_invalid_witness :
    dividir_en_bloques (S "hola") 0 =
      .error "max_chars debe ser mayor a cero" :=
  dividir_en_bloques_invalid (S "hola") 0 (by decide)

/-! ## Template layer — `src/prompt_engine/plantillas/` -/

/-- The dynamically-typed `especializacion_agricola` payload value:
absent (the `payload.get(..., [])` default), a delimited string, or a
list of strings. -/
inductive EspVal where
  | none
  | str (s : List Char)
  | list (items : List (List Char))
deriving DecidableEq

/-- Python truthiness of the value (`if not especializaciones`). -/
def EspVal.esFalsy : EspVal → Bool
  | .none => true
  | .str s => s.isEmpty
  | .list l => l.isEmpty

/-- Python iteration `for item in especializaciones`: iterating a string
yields its characters one by one; iterating a list yields its items. -/
def EspVal.iter : EspVal → List (List Char)
  | .none => []
  | .str s => s.map (fun c => [c])
  | .list l => l

/-- Python `s.split(",")`: split on every comma, keeping empty
fragments (`"".split(",")` is `[""]`). -/
def splitComma : List Char → List (List Char)
  | [] => [[]]
  | c :: rest =>
    if c = ',' then [] :: splitComma rest
    else
      match splitComma rest with
      | [] => [[c]]
      | g :: gs => (c :: g) :: gs

/-- The comprehension
`[item.strip() for item in especializaciones.split(",") if item.strip()]`
from `_formatear_especializacion_agricola`: split on commas only, strip
each fragment, discard empty fragments. -/
def espItemsDelimitados (s : List Char) : List (List Char) :=
  ((splitComma s).map strip).filter (fun i => !i.isEmpty)

/-- Python `", ".join(...)`. -/
def joinComma (items : List (List Char)) : List Char :=
  List.intercalate (S ", ") items

/-- `_formatear_especializacion_agricola` from `prom9_base.py`. -/
def _formatear_especializacion_agricola (esp : EspVal) : List Char :=
  if esp.esFalsy then []
  else
    let items := match esp with
      | .str s => espItemsDelimitados s
      | v => v.iter
    S "10) Este perfil está especializado en los siguientes cultivos agrícolas: " ++
      joinComma items ++ S ".\n"

/-- The payload dict built by `generar_prompt` (`motor.py` lines 39-49)
and extended with area-specific keys before each render call.  The
`Option` fields model dict keys that may be absent; the renderers apply
their own `payload.get(..., default)` fall-backs to them. -/
structure Payload where
  perfil_nombre : List Char
  perfil_rol : List Char
  contexto_nombre : List Char
  contexto_rol : List Char
  objetivo : List Char
  entradas : List Char
  restricciones : List Char
  formato_salida : List Char
  prioridad : List Char
  especializacion_agricola : EspVal := .none
  stack : Option (List Char) := none
  nivel_tecnico : Option (List Char) := none
  segmento : Option (List Char) := none
  propuesta_valor : Option (List Char) := none
  normativa : Option (List Char) := none
  periodo : Option (List Char) := none
  area_operativa : Option (List Char) := none
  horizonte : Option (List Char) := none

/-- `render_base` from `prom9_base.py`: the 9-point PROM-9 structure
plus the optional 10th specialization point. -/
def render_base (p : Payload) : List Char :=
  S "PROM-9™ | Base\n1) Perfil: " ++ p.perfil_nombre ++
  S " (" ++ p.perfil_rol ++
  S ")\n2) Contexto: " ++ p.contexto_nombre ++
  S " - Rol contextual: " ++ p.contexto_rol ++
  S "\n3) Objetivo: " ++ p.objetivo ++
  S "\n4) Entradas clave: " ++ p.entradas ++
  S "\n5) Restricciones: " ++ p.restricciones ++
  S "\n6) Formato de salida: " ++ p.formato_salida ++
  S "\n7) Prioridad: " ++ p.prioridad ++
  S "\n8) Criterios de calidad: Claridad, precisión y accionabilidad.\n9) Instrucción final: Entrega una respuesta profesional y estructurada en español.\n" ++
  _formatear_especializacion_agricola p.especializacion_agricola

/-- `render_it` from `plantillas/it.py`. -/
def render_it (p : Payload) : List Char :=
  render_base p ++
  S "\n[Extensión IT]\n- Stack/entorno: " ++ p.stack.getD (S "No especificado") ++
  S "\n- Nivel técnico esperado: " ++ p.nivel_tecnico.getD (S "Senior") ++
  S "\n- Consideraciones: seguridad, escalabilidad, mantenibilidad y pruebas.\n- Solicitud adicional: propone pasos de implementación y riesgos técnicos.\n"

/-- `_contexto_agricola_ventas` from `plantillas/ventas.py` (note: it
joins `str(item) for item in especializaciones` without splitting, so a
string value is iterated character-wise). -/
def _contexto_agricola_ventas (esp : EspVal) : List Char :=
  if esp.esFalsy then []
  else
    S "- Contexto agrícola aplicado: adapta los argumentos comerciales, ejemplos de oferta y objeciones al mercado de " ++
      joinComma esp.iter ++ S ".\n"

/-- `render_ventas` from `plantillas/ventas.py`. -/
def render_ventas (p : Payload) : List Char :=
  render_base p ++
  S "\n[Extensión Ventas]\n- Segmento objetivo: " ++ p.segmento.getD (S "General") ++
  S "\n- Propuesta de valor: " ++ p.propuesta_valor.getD (S "No especificada") ++
  S "\n" ++ _contexto_agricola_ventas p.especializacion_agricola ++
  S "- KPIs sugeridos: ratio de conversión, ticket medio, tiempo de cierre.\n- Solicitud adicional: redacta argumentos y objeciones con cierre persuasivo.\n"

/-- `render_contabilidad` from `plantillas/contabilidad.py`. -/
def render_contabilidad (p : Payload) : List Char :=
  render_base p ++
  S "\n[Extensión Contabilidad]\n- Marco normativo: " ++ p.normativa.getD (S "PGC/NIIF según aplique") ++
  S "\n- Periodo de análisis: " ++ p.periodo.getD (S "No especificado") ++
  S "\n- Consideraciones: trazabilidad, conciliación y cumplimiento fiscal.\n- Solicitud adicional: incluye asientos sugeridos y validaciones clave.\n"

/-- `_contexto_agricola_negocio` from `plantillas/gestion.py`. -/
def _contexto_agricola_negocio (esp : EspVal) : List Char :=
  if esp.esFalsy then []
  else
    S "- Contexto de negocio agrícola: prioriza recomendaciones operativas y ejemplos alineados con la gestión de " ++
      joinComma esp.iter ++ S ".\n"

/-- `render_gestion` from `plantillas/gestion.py`. -/
def render_gestion (p : Payload) : List Char :=
  render_base p ++
  S "\n[Extensión Gestión]\n- Área operativa: " ++ p.area_operativa.getD (S "No especificada") ++
  S "\n- Horizonte temporal: " ++ p.horizonte.getD (S "Corto/medio plazo") ++
  S "\n" ++ _contexto_agricola_negocio p.especializacion_agricola ++
  S "- Consideraciones: eficiencia, coordinación interáreas y control de riesgos.\n- Solicitud adicional: plantea plan de acción, hitos y responsables.\n"

/-! ## Prompt engine / router — `src/prompt_engine/motor.py` -/

/-- The `DIRECTRICES_TECNICAS_IT` module constant of `motor.py`. -/
def DIRECTRICES_TECNICAS_IT : List Char :=
  S "### Directrices obligatorias de análisis técnico\n\n- No asumir comportamiento de código no mostrado.\n- Señalar debilidades técnicas detectadas.\n- Indicar riesgos y problemas potenciales.\n- Si faltan archivos o funciones para análisis completo,\n  solicitarlos explícitamente antes de proponer solución final.\n- No validar decisiones por cortesía.\n- Mantener tono profesional, crítico y técnico.\n- No incluir elogios ni frases motivacionales.\n"

/-- Python `dict.get(k, default)` over an association-list model of a
dict (keys unique in every dict the program builds). -/
def dget {α : Type} (d : List (String × α)) (k : String) (dflt : α) : α :=
  match d.find? (fun p => p.1 == k) with
  | some p => p.2
  | none => dflt

/-- `_normalizar_area` from `motor.py`: `area.strip().lower()`. -/
def _normalizar_area (area : List Char) : List Char := lower (strip area)

/-- The four extension renderers the router can dispatch to. -/
inductive Plantilla where
  | it
  | ventas
  | contabilidad
  | gestion
deriving DecidableEq

/-- The `if area == "it" / "ventas" / "contabilidad" / else` dispatch
chain of `generar_prompt` (`motor.py` lines 52-83), taking the already
normalized area. -/
def seleccionar_plantilla (area : List Char) : Plantilla :=
  if area = S "it" then .it
  else if area = S "ventas" then .ventas
  else if area = S "contabilidad" then .contabilidad
  else .gestion

/-- The base payload built by `generar_prompt` (`motor.py` lines 39-49). -/
def construir_payload (datos_tarea perfil contexto : List (String × List Char)) :
    Payload where
  perfil_nombre := dget perfil "nombre" (S "Usuario")
  perfil_rol := dget perfil "rol" (S "Profesional")
  contexto_nombre := dget contexto "nombre" (S "General")
  contexto_rol := dget contexto "rol_contextual" (S "Asistente")
  objetivo := dget datos_tarea "objetivo" []
  entradas := dget datos_tarea "entradas" []
  restricciones := dget datos_tarea "restricciones" []
  formato_salida := dget datos_tarea "formato_salida" []
  prioridad := dget datos_tarea "prioridad" (S "Media")

/-- `generar_prompt` from `motor.py`.  `adjuntos` stands for the text
`leer_archivos` returns when attachment paths are supplied (`none` is
the `if adjuntos:` falsy branch — no paths; the reader itself is file
I/O and out of the shallow embedding). -/
def generar_prompt (datos_tarea perfil contexto : List (String × List Char))
    (adjuntos : Option (List Char)) : List Char :=
  let payload := construir_payload datos_tarea perfil contexto
  let area := _normalizar_area (dget datos_tarea "area" [])
  let prompt :=
    match seleccionar_plantilla area with
    | .it => render_it { payload with
        stack := some (dget datos_tarea "stack" (S "Python 3.9+")),
        nivel_tecnico := some (dget datos_tarea "nivel_tecnico" (S "Senior")) }
    | .ventas => render_ventas { payload with
        segmento := some (dget datos_tarea "segmento" (S "B2B")),
        propuesta_valor := some (dget datos_tarea "propuesta_valor" []) }
    | .contabilidad => render_contabilidad { payload with
        normativa := some (dget datos_tarea "normativa" (S "PGC")),
        periodo := some (dget datos_tarea "periodo" []) }
    | .gestion => render_gestion { payload with
        area_operativa := some (dget datos_tarea "area_operativa" (S "Operaciones")),
        horizonte := some (dget datos_tarea "horizonte" (S "Trimestral")) }
  let secciones := [prompt] ++
    (match adjuntos with
     | some s => [s]
     | none => []) ++
    (if seleccionar_plantilla area = .it then [DIRECTRICES_TECNICAS_IT] else [])
  List.intercalate (S "\n\n") (secciones.filter (fun s => !(strip s).isEmpty))

/-! ## Helper lemmas on text utilities -/

theorem intercalate_singleton (sep a : List Char) :
    List.intercalate sep [a] = a := by
  simp [List.intercalate, List.intersperse]

theorem intercalate_pair (sep a b : List Char) :
    List.intercalate sep [a, b] = a ++ sep ++ b := by
  simp [List.intercalate, List.intersperse]

theorem mem_of_mem_strip {c : Char} {l : List Char} (h : c ∈ strip l) :
    c ∈ l := by
  unfold strip at h
  rw [List.mem_reverse] at h
  have h2 := (List.dropWhile_sublist Char.isWhitespace).subset h
  rw [List.mem_reverse] at h2
  exact (List.dropWhile_sublist _).subset h2

theorem strip_cons_isEmpty_false (c : Char) (xs : List Char)
    (hw : c.isWhitespace = false) : (strip (c :: xs)).isEmpty = false := by
  rw [List.isEmpty_eq_false]
  intro h
  unfold strip at h
  rw [List.dropWhile_cons, hw] at h
  simp only [Bool.false_eq_true, if_false] at h
  rw [List.reverse_eq_nil_iff, List.dropWhile_eq_nil_iff] at h
  have hc := h c (by simp)
  rw [hw] at hc
  exact Bool.false_ne_true hc

theorem strip_isEmpty_false_of_head (l : List Char) (c : Char)
    (hc : l.head? = some c) (hw : c.isWhitespace = false) :
    (strip l).isEmpty = false := by
  rcases l with _ | ⟨a, xs⟩
  · simp at hc
  · simp only [List.head?_cons, Option.some.injEq] at hc
    subst hc
    exact strip_cons_isEmpty_false a xs hw

theorem splitComma_cons_comma (rest : List Char) :
    splitComma (',' :: rest) = [] :: splitComma rest := by
  rw [splitComma]
  simp

theorem splitComma_ne_nil (s : List Char) : splitComma s ≠ [] := by
  cases s with
  | nil => simp [splitComma]
  | cons c rest =>
    rw [splitComma]
    by_cases hc : c = ','
    · simp [hc]
    · rw [if_neg hc]
      cases hsplit : splitComma rest <;> simp

theorem splitComma_cons_not_comma (c : Char) (rest g0 : List Char)
    (gs : List (List Char)) (hc : ¬ c = ',')
    (hrest : splitComma rest = g0 :: gs) :
    splitComma (c :: rest) = (c :: g0) :: gs := by
  rw [splitComma, if_neg hc, hrest]

theorem splitComma_no_comma (s : List Char) :
    ∀ g ∈ splitComma s, ',' ∉ g := by
  induction s with
  | nil =>
    intro g hg
    rw [splitComma, List.mem_singleton] at hg
    subst hg
    exact List.not_mem_nil ','
  | cons c rest ih =>
    intro g hg
    by_cases hc : c = ','
    · subst hc
      rw [splitComma_cons_comma, List.mem_cons] at hg
      rcases hg with rfl | hg
      · exact List.not_mem_nil ','
      · exact ih g hg
    · obtain ⟨g0, gs, hrest⟩ : ∃ g0 gs, splitComma rest = g0 :: gs := by
        cases h : splitComma rest with
        | nil => exact absurd h (splitComma_ne_nil rest)
        | cons a b => exact ⟨a, b, rfl⟩
      rw [splitComma_cons_not_comma c rest g0 gs hc hrest, List.mem_cons] at hg
      rcases hg with rfl | hg
      · intro hmem
        rw [List.mem_cons] at hmem
        rcases hmem with h1 | h1
        · exact hc h1.symm
        · exact ih g0 (by rw [hrest]; exact List.mem_cons_self g0 gs) h1
      · exact ih g (by rw [hrest]; exact List.mem_cons_of_mem g0 hg)

theorem splitComma_of_not_mem (s : List Char) (h : ',' ∉ s) :
    splitComma s = [s] := by
  induction s with
  | nil => rfl
  | cons c rest ih =>
    have hc : ¬ c = ',' :=
      fun habs => h (by rw [habs]; exact List.mem_cons_self _ _)
    have hr : ',' ∉ rest := fun habs => h (List.mem_cons_of_mem _ habs)
    exact splitComma_cons_not_comma c rest rest [] hc (ih hr)

/-- C2: area routing is case-insensitive after stripping whitespace:
"IT", "it" and " it " select the IT renderer; any value whose
normalization is not `it`, `ventas` or `contabilidad` (including the
empty string) selects the Operations/generic (`gestion`) renderer
rather than failing. -/
theorem seleccionar_plantilla_routing (area : List Char) :
    seleccionar_plantilla (_normalizar_area (S "IT")) = .it ∧
    seleccionar_plantilla (_normalizar_area (S "it")) = .it ∧
    seleccionar_plantilla (_normalizar_area (S " it ")) = .it ∧
    seleccionar_plantilla (_normalizar_area (S "")) = .gestion ∧
    seleccionar_plantilla (_normalizar_area (S "unknown")) = .gestion ∧
    (_normalizar_area area ≠ S "it" →
     _normalizar_area area ≠ S "ventas" →
     _normalizar_area area ≠ S "contabilidad" →
     seleccionar_plantilla (_normalizar_area area) = .gestion) := by
  refine ⟨by decide, by decide, by decide, by decide, by decide, ?_⟩
  intro h1 h2 h3
  simp [seleccionar_plantilla, h1, h2, h3]

theorem seleccionar_plantilla_routing_witness :
    seleccionar_plantilla (_normalizar_area (S " it ")) = .it ∧
    seleccionar_plantilla (_normalizar_area (S "finanzas")) = .gestion := by
  refine ⟨(seleccionar_plantilla_routing (S "finanzas")).2.2.1, ?_⟩
  exact (seleccionar_plantilla_routing (S "finanzas")).2.2.2.2.2
    (by decide) (by decide) (by decide)

/-- C4 (counterexample): a `datos_tarea` whose `prioridad` key holds the
empty string yields a payload with `prioridad = ""`, not `"Media"`:
`dict.get` only applies its default when the key is absent. -/
theorem construir_payload_prioridad_counterexample :
    (construir_payload [("prioridad", ([] : List Char))] [] []).prioridad = [] ∧
    (construir_payload [("prioridad", ([] : List Char))] [] []).prioridad ≠
      S "Media" := by
  decide

/-- C4 (amended): the payload's `prioridad` is `"Media"` exactly when
the `prioridad` key is missing from `datos_tarea`; when the key is
present its value is passed through verbatim, the empty string
included. -/
theorem construir_payload_prioridad_default
    (datos perfil contexto : List (String × List Char)) :
    (datos.find? (fun p => p.1 == "prioridad") = none →
      (construir_payload datos perfil contexto).prioridad = S "Media") ∧
    (∀ pr, datos.find? (fun p => p.1 == "prioridad") = some pr →
      (construir_payload datos perfil contexto).prioridad = pr.2) := by
  constructor
  · intro h
    simp [construir_payload, dget, h]
  · intro pr h
    simp [construir_payload, dget, h]

theorem construir_payload_prioridad_default_witness :
    (construir_payload [("objetivo", S "x")] [] []).prioridad = S "Media" ∧
    (construir_payload [("prioridad", S "")] [] []).prioridad = S "" := by
  constructor
  · exact (construir_payload_prioridad_default [("objetivo", S "x")] [] []).1
      (by decide)
  · exact (construir_payload_prioridad_default [("prioridad", S "")] [] []).2
      ("prioridad", S "") (by decide)

/-- C5 (counterexample): the base renderer does not treat newlines as
separators: the delimited string `"trigo\nmaiz"` is listed as the single
item `trigo\nmaiz` in the 10th point, not as the two items
`trigo, maiz`. -/
theorem formatear_especializacion_counterexample :
    _formatear_especializacion_agricola (.str (S "trigo\nmaiz")) =
      S "10) Este perfil está especializado en los siguientes cultivos agrícolas: trigo\nmaiz.\n" ∧
    _formatear_especializacion_agricola (.str (S "trigo\nmaiz")) ≠
      S "10) Este perfil está especializado en los siguientes cultivos agrícolas: trigo, maiz.\n" := by
  decide

/-- C5 (amended): the base renderer normalizes a delimited
`especializacion_agricola` string using commas only (not newlines) as
separators, stripping fragments and discarding empty ones: every item
is non-empty and comma-free, and a comma-free string (even one holding
newlines) stays a single item. -/
theorem espItems_commas_only (s : List Char) :
    (∀ i ∈ espItemsDelimitados s, i ≠ [] ∧ ',' ∉ i) ∧
    (',' ∉ s → strip s ≠ [] → espItemsDelimitados s = [strip s]) := by
  constructor
  · intro i hi
    unfold espItemsDelimitados at hi
    rw [List.mem_filter] at hi
    obtain ⟨hmem, hne⟩ := hi
    rw [List.mem_map] at hmem
    obtain ⟨g, hg, rfl⟩ := hmem
    refine ⟨by simpa [List.isEmpty_eq_false] using hne, ?_⟩
    intro hc
    exact splitComma_no_comma s g hg (mem_of_mem_strip hc)
  · intro hnc hne
    unfold espItemsDelimitados
    rw [splitComma_of_not_mem s hnc]
    have hemp : (strip s).isEmpty = false := by
      rw [List.isEmpty_eq_false]
      exact hne
    simp [List.filter, hemp]

theorem espItems_commas_only_witness :
    espItemsDelimitados (S "uva\npera") = [strip (S "uva\npera")] :=
  (espItems_commas_only (S "uva\npera")).2 (by decide) (by decide)

/-! ## Head and tail facts about the renderers (for C3) -/

theorem render_base_head (p : Payload) : (render_base p).head? = some 'P' := by
  have h : (S "PROM-9™ | Base\n1) Perfil: ").head? = some 'P' := rfl
  simp [render_base, List.head?_append, h]

theorem render_it_head (p : Payload) : (render_it p).head? = some 'P' := by
  simp [render_it, List.head?_append, render_base_head p]

theorem render_ventas_head (p : Payload) : (render_ventas p).head? = some 'P' := by
  simp [render_ventas, List.head?_append, render_base_head p]

theorem render_contabilidad_head (p : Payload) :
    (render_contabilidad p).head? = some 'P' := by
  simp [render_contabilidad, List.head?_append, render_base_head p]

theorem render_gestion_head (p : Payload) : (render_gestion p).head? = some 'P' := by
  simp [render_gestion, List.head?_append, render_base_head p]

theorem render_it_last (p : Payload) : (render_it p).getLast? = some '\n' := by
  have h : (S "\n- Consideraciones: seguridad, escalabilidad, mantenibilidad y pruebas.\n- Solicitud adicional: propone pasos de implementación y riesgos técnicos.\n").getLast? = some '\n' := rfl
  simp [render_it, List.getLast?_append, h]

theorem render_ventas_last (p : Payload) : (render_ventas p).getLast? = some '\n' := by
  have h : (S "- KPIs sugeridos: ratio de conversión, ticket medio, tiempo de cierre.\n- Solicitud adicional: redacta argumentos y objeciones con cierre persuasivo.\n").getLast? = some '\n' := rfl
  simp [render_ventas, List.getLast?_append, h]

theorem render_contabilidad_last (p : Payload) :
    (render_contabilidad p).getLast? = some '\n' := by
  have h : (S "\n- Consideraciones: trazabilidad, conciliación y cumplimiento fiscal.\n- Solicitud adicional: incluye asientos sugeridos y validaciones clave.\n").getLast? = some '\n' := rfl
  simp [render_contabilidad, List.getLast?_append, h]

theorem render_gestion_last (p : Payload) : (render_gestion p).getLast? = some '\n' := by
  have h : (S "- Consideraciones: eficiencia, coordinación interáreas y control de riesgos.\n- Solicitud adicional: plantea plan de acción, hitos y responsables.\n").getLast? = some '\n' := rfl
  simp [render_gestion, List.getLast?_append, h]

set_option maxRecDepth 8000 in
/-- C3 (counterexample): at the concrete input of three empty dicts and
no attachments, the prompt returned by `generar_prompt` is not trimmed:
stripping changes it, and its last character is the whitespace `'\n'`. -/
theorem generar_prompt_trailing_ws_counterexample :
    strip (generar_prompt [] [] [] none) ≠ generar_prompt [] [] [] none ∧
    (generar_prompt [] [] [] none).getLast? = some '\n' := by
  constructor
  · decide
  · decide

/-- C3 (amended): for every input (without attachments) the string
returned by `generar_prompt` is the non-empty sections joined by a
blank line, with no leading whitespace (it starts with the `P` of
`PROM-9`), but it is not trimmed at the end: it always ends with a
newline, because the code joins the sections without calling
`.strip()` on the result. -/
theorem generar_prompt_untrimmed (datos perfil contexto : List (String × List Char)) :
    (generar_prompt datos perfil contexto none).head? = some 'P' ∧
    (generar_prompt datos perfil contexto none).getLast? = some '\n' := by
  have hD : (strip DIRECTRICES_TECNICAS_IT).isEmpty = false := by decide
  have hDlast : DIRECTRICES_TECNICAS_IT.getLast? = some '\n' := by decide
  simp only [generar_prompt]
  cases hsel : seleccionar_plantilla (_normalizar_area (dget datos "area" [])) with
  | it =>
    have hhead := render_it_head { construir_payload datos perfil contexto with
      stack := some (dget datos "stack" (S "Python 3.9+")),
      nivel_tecnico := some (dget datos "nivel_tecnico" (S "Senior")) }
    have hstrip := strip_isEmpty_false_of_head _ 'P' hhead (by decide)
    have hlast := render_it_last { construir_payload datos perfil contexto with
      stack := some (dget datos "stack" (S "Python 3.9+")),
      nivel_tecnico := some (dget datos "nivel_tecnico" (S "Senior")) }
    simp only [List.append_nil, List.nil_append, List.cons_append,
      List.filter, hstrip, hD, Bool.not_false, if_pos, intercalate_pair]
    constructor
    · simp [List.head?_append, hhead]
    · simp [List.getLast?_append, hDlast]
  | ventas =>
    have hhead := render_ventas_head { construir_payload datos perfil contexto with
      segmento := some (dget datos "segmento" (S "B2B")),
      propuesta_valor := some (dget datos "propuesta_valor" []) }
    have hstrip := strip_isEmpty_false_of_head _ 'P' hhead (by decide)
    have hlast := render_ventas_last { construir_payload datos perfil contexto with
      segmento := some (dget datos "segmento" (S "B2B")),
      propuesta_valor := some (dget datos "propuesta_valor" []) }
    simp only [List.append_nil, List.nil_append, List.cons_append,
      List.filter, hstrip, Bool.not_false, intercalate_singleton]
    exact ⟨hhead, hlast⟩
  | contabilidad =>
    have hhead := render_contabilidad_head { construir_payload datos perfil contexto with
      normativa := some (dget datos "normativa" (S "PGC")),
      periodo := some (dget datos "periodo" []) }
    have hstrip := strip_isEmpty_false_of_head _ 'P' hhead (by decide)
    have hlast := render_contabilidad_last { construir_payload datos perfil contexto with
      normativa := some (dget datos "normativa" (S "PGC")),
      periodo := some (dget datos "periodo" []) }
    simp only [List.append_nil, List.nil_append, List.cons_append,
      List.filter, hstrip, Bool.not_false, intercalate_singleton]
    exact ⟨hhead, hlast⟩
  | gestion =>
    have hhead := render_gestion_head { construir_payload datos perfil contexto with
      area_operativa := some (dget datos "area_operativa" (S "Operaciones")),
      horizonte := some (dget datos "horizonte" (S "Trimestral")) }
    have hstrip := strip_isEmpty_false_of_head _ 'P' hhead (by decide)
    have hlast := render_gestion_last { construir_payload datos perfil contexto with
      area_operativa := some (dget datos "area_operativa" (S "Operaciones")),
      horizonte := some (dget datos "horizonte" (S "Trimestral")) }
    simp only [List.append_nil, List.nil_append, List.cons_append,
      List.filter, hstrip, Bool.not_false, intercalate_singleton]
    exact ⟨hhead, hlast⟩

/-! ## Task records — `src/prompt_engine/schemas.py` -/

/-- The `Tarea` dataclass: a persisted prompt-generation record.  All
fields are strings (ids are the sortable `YYYYMMDDHHMMSS` strings, and
`created_at` an ISO-8601 timestamp). -/
structure Tarea where
  id : String
  usuario : String
  contexto : String
  area : String
  objetivo : String
  entradas : String
  restricciones : String
  formato_salida : String
  prioridad : String
  prompt_generado : String
  created_at : String
deriving DecidableEq

/-- `Tarea.to_dict`: the 11-key dict serialized to JSON. -/
def Tarea.to_dict (t : Tarea) : List (String × String) :=
  [("id", t.id), ("usuario", t.usuario), ("contexto", t.contexto),
   ("area", t.area), ("objetivo", t.objetivo), ("entradas", t.entradas),
   ("restricciones", t.restricciones), ("formato_salida", t.formato_salida),
   ("prioridad", t.prioridad), ("prompt_generado", t.prompt_generado),
   ("created_at", t.created_at)]

/-- `Tarea.from_dict`: reads each key with `dict.get` and its default.
`now` stands for the `iso_timestamp()` value Python computes eagerly for
the `created_at` default; `str(...)` around the id is the identity on
strings. -/
def Tarea.from_dict (now : String) (data : List (String × String)) : Tarea where
  id := dget data "id" ""
  usuario := dget data "usuario" ""
  contexto := dget data "contexto" ""
  area := dget data "area" ""
  objetivo := dget data "objetivo" ""
  entradas := dget data "entradas" ""
  restricciones := dget data "restricciones" ""
  formato_salida := dget data "formato_salida" ""
  prioridad := dget data "prioridad" "Media"
  prompt_generado := dget data "prompt_generado" ""
  created_at := dget data "created_at" now

/-- C10: serializing a task record and deserializing it again restores
every field, whatever timestamp the deserializer would have used as the
`created_at` default. -/
theorem tarea_roundtrip (t : Tarea) (now : String) :
    Tarea.from_dict now t.to_dict = t := rfl

/-! ## Storage layer — `src/prompt_engine/storage.py`

The persisted collection (the `tareas.json` array) is modelled as the
list of its parsed records; the JSON serialization of the individual
records is covered by `tarea_roundtrip`. -/

/-- The comparison realised by `sort(key=lambda t: t.id, reverse=True)`:
descending lexicographic order of ids. -/
def leDescId (a b : Tarea) : Bool := decide (b.id ≤ a.id)

/-- `listar_tareas`: all records sorted by id descending (Python
`list.sort` and `List.mergeSort` are both stable). -/
def listar_tareas (stored : List Tarea) : List Tarea :=
  stored.mergeSort leDescId

/-- The replace-first-match-or-append loop of `guardar_tarea`. -/
def upsert (tareas : List Tarea) (tarea : Tarea) : List Tarea :=
  match tareas with
  | [] => [tarea]
  | s :: rest =>
    if s.id = tarea.id then tarea :: rest else s :: upsert rest tarea

/-- `guardar_tarea`: upsert by id into the listed collection, then
re-sort descending and persist. -/
def guardar_tarea (stored : List Tarea) (tarea : Tarea) : List Tarea :=
  (upsert (listar_tareas stored) tarea).mergeSort leDescId

/-- `eliminar_tarea`: filter out the matching id; if nothing was
removed report `False` and leave the persisted file untouched,
otherwise persist the filtered list and report `True`. -/
def eliminar_tarea (stored : List Tarea) (tarea_id : String) :
    Bool × List Tarea :=
  let tareas := listar_tareas stored
  let filtered := tareas.filter (fun t => t.id != tarea_id)
  if filtered.length = tareas.length then (false, stored) else (true, filtered)

/-! ## Lemmas about the upsert loop of `guardar_tarea` -/

theorem upsert_length_of_match (l : List Tarea) (r : Tarea)
    (h : ∃ s ∈ l, s.id = r.id) : (upsert l r).length = l.length := by
  induction l with
  | nil =>
    obtain ⟨s, hs, _⟩ := h
    exact absurd hs (List.not_mem_nil s)
  | cons s rest ih =>
    rw [upsert]
    by_cases hid : s.id = r.id
    · rw [if_pos hid]
      simp
    · rw [if_neg hid]
      have hh : ∃ s2 ∈ rest, s2.id = r.id := by
        obtain ⟨s2, hs2, hid2⟩ := h
        rcases List.mem_cons.mp hs2 with rfl | hmem
        · exact absurd hid2 hid
        · exact ⟨s2, hmem, hid2⟩
      simp [List.length_cons, ih hh]

theorem upsert_length_of_no_match (l : List Tarea) (r : Tarea)
    (h : ∀ s ∈ l, s.id ≠ r.id) : (upsert l r).length = l.length + 1 := by
  induction l with
  | nil => rfl
  | cons s rest ih =>
    rw [upsert, if_neg (h s (List.mem_cons_self s rest))]
    have hh := ih (fun s2 hs2 => h s2 (List.mem_cons_of_mem s hs2))
    simp [List.length_cons, hh]

theorem upsert_mem_self (l : List Tarea) (r : Tarea) : r ∈ upsert l r := by
  induction l with
  | nil =>
    rw [upsert]
    exact List.mem_singleton.mpr rfl
  | cons s rest ih =>
    rw [upsert]
    by_cases hid : s.id = r.id
    · rw [if_pos hid]
      exact List.mem_cons_self r rest
    · rw [if_neg hid]
      exact List.mem_cons_of_mem s ih

theorem upsert_subset_of_no_match (l : List Tarea) (r : Tarea)
    (h : ∀ s ∈ l, s.id ≠ r.id) : ∀ t ∈ l, t ∈ upsert l r := by
  induction l with
  | nil =>
    intro t ht
    exact absurd ht (List.not_mem_nil t)
  | cons s rest ih =>
    intro t ht
    rw [upsert, if_neg (h s (List.mem_cons_self s rest))]
    rcases List.mem_cons.mp ht with rfl | hmem
    · exact List.mem_cons_self t _
    · exact List.mem_cons_of_mem s
        (ih (fun s2 hs2 => h s2 (List.mem_cons_of_mem s hs2)) t hmem)

theorem upsert_unique_id (l : List Tarea) (r : Tarea)
    (hnd : (l.map Tarea.id).Nodup) :
    ∀ t ∈ upsert l r, t.id = r.id → t = r := by
  induction l with
  | nil =>
    intro t ht _
    rw [upsert] at ht
    exact List.mem_singleton.mp ht
  | cons s rest ih =>
    have hnds : s.id ∉ rest.map Tarea.id ∧ (rest.map Tarea.id).Nodup := by
      rw [List.map_cons, List.nodup_cons] at hnd
      exact hnd
    intro t ht htid
    rw [upsert] at ht
    by_cases hid : s.id = r.id
    · rw [if_pos hid] at ht
      rcases List.mem_cons.mp ht with rfl | hmem
      · rfl
      · have hin : t.id ∈ rest.map Tarea.id := List.mem_map_of_mem Tarea.id hmem
        rw [htid, ← hid] at hin
        exact absurd hin hnds.1
    · rw [if_neg hid] at ht
      rcases List.mem_cons.mp ht with rfl | hmem
      · exact absurd htid hid
      · exact ih hnds.2 t hmem htid

theorem upsert_ids_of_match (l : List Tarea) (r : Tarea)
    (h : ∃ s ∈ l, s.id = r.id) :
    (upsert l r).map Tarea.id = l.map Tarea.id := by
  induction l with
  | nil =>
    obtain ⟨s, hs, _⟩ := h
    exact absurd hs (List.not_mem_nil s)
  | cons s rest ih =>
    rw [upsert]
    by_cases hid : s.id = r.id
    · rw [if_pos hid]
      simp [List.map_cons, hid]
    · rw [if_neg hid]
      have hh : ∃ s2 ∈ rest, s2.id = r.id := by
        obtain ⟨s2, hs2, hid2⟩ := h
        rcases List.mem_cons.mp hs2 with rfl | hmem
        · exact absurd hid2 hid
        · exact ⟨s2, hmem, hid2⟩
      simp [List.map_cons, ih hh]

theorem upsert_ids_of_no_match (l : List Tarea) (r : Tarea)
    (h : ∀ s ∈ l, s.id ≠ r.id) :
    (upsert l r).map Tarea.id = l.map Tarea.id ++ [r.id] := by
  induction l with
  | nil => rfl
  | cons s rest ih =>
    rw [upsert, if_neg (h s (List.mem_cons_self s rest))]
    simp [List.map_cons, ih (fun s2 hs2 => h s2 (List.mem_cons_of_mem s hs2))]

/-- C6: saving a record whose id already occurs in the collection
replaces that record (size unchanged, the record stored under that id
is the new one); saving a fresh id appends it while keeping every old
record; in both cases the ids stay duplicate-free. -/
theorem guardar_tarea_upsert (stored : List Tarea) (r : Tarea)
    (hnd : (stored.map Tarea.id).Nodup) :
    ((∃ s ∈ stored, s.id = r.id) →
      (guardar_tarea stored r).length = stored.length ∧
      r ∈ guardar_tarea stored r ∧
      ∀ t ∈ guardar_tarea stored r, t.id = r.id → t = r) ∧
    ((∀ s ∈ stored, s.id ≠ r.id) →
      (guardar_tarea stored r).length = stored.length + 1 ∧
      r ∈ guardar_tarea stored r ∧
      ∀ t ∈ stored, t ∈ guardar_tarea stored r) ∧
    ((guardar_tarea stored r).map Tarea.id).Nodup := by
  have hperm : List.Perm (listar_tareas stored) stored :=
    List.mergeSort_perm stored leDescId
  have hpermg : List.Perm (guardar_tarea stored r) (upsert (listar_tareas stored) r) :=
    List.mergeSort_perm _ _
  have hndL : ((listar_tareas stored).map Tarea.id).Nodup :=
    ((hperm.map Tarea.id).nodup_iff).mpr hnd
  refine ⟨?_, ?_, ?_⟩
  · intro hex
    have hexL : ∃ s ∈ listar_tareas stored, s.id = r.id := by
      obtain ⟨s, hs, hid⟩ := hex
      exact ⟨s, hperm.mem_iff.mpr hs, hid⟩
    refine ⟨?_, ?_, ?_⟩
    · rw [hpermg.length_eq, upsert_length_of_match _ r hexL, hperm.length_eq]
    · exact hpermg.mem_iff.mpr (upsert_mem_self _ r)
    · intro t ht htid
      exact upsert_unique_id _ r hndL t (hpermg.mem_iff.mp ht) htid
  · intro hno
    have hnoL : ∀ s ∈ listar_tareas stored, s.id ≠ r.id :=
      fun s hs => hno s (hperm.mem_iff.mp hs)
    refine ⟨?_, ?_, ?_⟩
    · rw [hpermg.length_eq, upsert_length_of_no_match _ r hnoL, hperm.length_eq]
    · exact hpermg.mem_iff.mpr (upsert_mem_self _ r)
    · intro t ht
      exact hpermg.mem_iff.mpr
        (upsert_subset_of_no_match _ r hnoL t (hperm.mem_iff.mpr ht))
  · by_cases hex : ∃ s ∈ stored, s.id = r.id
    · have hexL : ∃ s ∈ listar_tareas stored, s.id = r.id := by
        obtain ⟨s, hs, hid⟩ := hex
        exact ⟨s, hperm.mem_iff.mpr hs, hid⟩
      have hup : ((upsert (listar_tareas stored) r).map Tarea.id).Nodup := by
        rw [upsert_ids_of_match _ r hexL]
        exact hndL
      exact ((hpermg.map Tarea.id).symm).nodup hup
    · have hnoL : ∀ s ∈ listar_tareas stored, s.id ≠ r.id := by
        intro s hs habs
        exact hex ⟨s, hperm.mem_iff.mp hs, habs⟩
      have hup : ((upsert (listar_tareas stored) r).map Tarea.id).Nodup := by
        rw [upsert_ids_of_no_match _ r hnoL]
        refine List.Nodup.append hndL (List.nodup_singleton r.id) ?_
        intro a ha hb
        rw [List.mem_singleton] at hb
        subst hb
        obtain ⟨s, hs, hsid⟩ := List.mem_map.mp ha
        exact hnoL s hs hsid
      exact ((hpermg.map Tarea.id).symm).nodup hup

/-! Sample records for concrete witnesses. -/

def tareaA : Tarea :=
  ⟨"20240101000000", "ana", "ctx", "it", "obj", "ent", "res", "fmt",
   "Alta", "prompt-a", "2024-01-01T00:00:00+00:00"⟩

def tareaB : Tarea :=
  ⟨"20240102000000", "ben", "ctx", "ventas", "ob2", "en2", "re2", "fo2",
   "Media", "prompt-b", "2024-01-02T00:00:00+00:00"⟩

def tareaA2 : Tarea := { tareaA with prompt_generado := "editado" }

theorem guardar_tarea_upsert_witness :
    (guardar_tarea [tareaA, tareaB] tareaA2).length = 2 ∧
    tareaA2 ∈ guardar_tarea [tareaA, tareaB] tareaA2 ∧
    (guardar_tarea [tareaA, tareaB] tareaB).length = 2 := by
  have h := (guardar_tarea_upsert [tareaA, tareaB] tareaA2 (by decide)).1
    ⟨tareaA, by decide, by decide⟩
  have h2 := (guardar_tarea_upsert [tareaA, tareaB] tareaB (by decide)).1
    ⟨tareaB, by decide, by decide⟩
  exact ⟨h.1, h.2.1, h2.1⟩

/-! ## Ordering invariant (C7) -/

theorem leDescId_trans (a b c : Tarea) (hab : leDescId a b = true)
    (hbc : leDescId b c = true) : leDescId a c = true := by
  simp only [leDescId, decide_eq_true_eq] at hab hbc ⊢
  exact le_trans hbc hab

theorem leDescId_total (a b : Tarea) :
    (leDescId a b || leDescId b a) = true := by
  simp only [leDescId, Bool.or_eq_true, decide_eq_true_eq]
  exact le_total b.id a.id

/-- C7: listing always returns the records ordered by id descending
(each record's id is ≥ every later one, lexicographically), and every
save re-establishes this invariant. -/
theorem orden_descendente_invariante (stored : List Tarea) (r : Tarea) :
    (listar_tareas stored).Pairwise (fun a b => b.id ≤ a.id) ∧
    (guardar_tarea stored r).Pairwise (fun a b => b.id ≤ a.id) := by
  constructor
  · have h := List.sorted_mergeSort leDescId_trans leDescId_total stored
    exact h.imp (fun hab => by
      simpa [leDescId, decide_eq_true_eq] using hab)
  · have h := List.sorted_mergeSort leDescId_trans leDescId_total
      (upsert (listar_tareas stored) r)
    exact h.imp (fun hab => by
      simpa [leDescId, decide_eq_true_eq] using hab)

/-! ## Deletion (C8) -/

/-- C8: deleting an id that is not in the collection reports `False`
and leaves the persisted collection unchanged; deleting a present id
reports `True` and removes exactly the matching records. -/
theorem eliminar_tarea_spec (stored : List Tarea) (tid : String) :
    ((∀ t ∈ stored, t.id ≠ tid) →
      eliminar_tarea stored tid = (false, stored)) ∧
    ((∃ t ∈ stored, t.id = tid) →
      (eliminar_tarea stored tid).1 = true ∧
      ∀ t, (t ∈ (eliminar_tarea stored tid).2 ↔ t ∈ stored ∧ t.id ≠ tid)) := by
  have hperm : List.Perm (listar_tareas stored) stored :=
    List.mergeSort_perm stored leDescId
  constructor
  · intro h
    have hall : ∀ t ∈ listar_tareas stored, (t.id != tid) = true := by
      intro t ht
      have hne := h t (hperm.mem_iff.mp ht)
      simpa [bne_iff_ne] using hne
    have heq : (listar_tareas stored).filter (fun t => t.id != tid) =
        listar_tareas stored := List.filter_eq_self.mpr hall
    simp only [eliminar_tarea]
    rw [heq, if_pos rfl]
  · intro hex
    have hexL : ∃ t ∈ listar_tareas stored, t.id = tid := by
      obtain ⟨t, ht, hid⟩ := hex
      exact ⟨t, hperm.mem_iff.mpr ht, hid⟩
    have hlt : ¬ ((listar_tareas stored).filter (fun t => t.id != tid)).length =
        (listar_tareas stored).length := by
      intro habs
      rw [List.filter_length_eq_length] at habs
      obtain ⟨t, ht, htid⟩ := hexL
      have hb := habs t ht
      rw [bne_iff_ne] at hb
      exact hb htid
    simp only [eliminar_tarea]
    rw [if_neg hlt]
    refine ⟨rfl, ?_⟩
    intro t
    rw [List.mem_filter, hperm.mem_iff, bne_iff_ne]

theorem eliminar_tarea_spec_witness :
    eliminar_tarea [tareaA] "nope" = (false, [tareaA]) ∧
    (eliminar_tarea [tareaA, tareaB] "20240101000000").1 = true := by
  constructor
  · exact (eliminar_tarea_spec [tareaA] "nope").1 (by decide)
  · exact ((eliminar_tarea_spec [tareaA, tareaB] "20240101000000").2
      ⟨tareaA, by decide, by decide⟩).1
